import Mathlib

/-!
Verification of the uoma plugin SDK (src/index.js) against its design
specification.  The JavaScript source is shallowly embedded: JS values that
the SDK inspects are a small inductive type, the mutable globals
(window.uomaPluginId, eventCallbackList) are explicit state, and the
asynchronous capability-check protocol is a small event-step model.
-/

set_option maxHeartbeats 1000000

deriving instance DecidableEq for Except

namespace UomaSdk

/-- A JavaScript value as far as the SDK inspects one: the SDK only ever
branches on typeof string or function, string contents, boolean truthiness
and callback identity.  Functions are identified by a handle, which models
the identity-equality (triple equals) that off uses to find a callback. -/
inductive JsVal where
  | str (s : String)
  | num (n : Int)
  | bool (b : Bool)
  | undef
  | fn (id : Nat)
deriving DecidableEq, Repr

/-- JS boolean coercion of a value, restricted to the variants of JsVal
(NaN does not arise: num carries an integer). -/
def jsTruthy : JsVal → Bool
  | .str s => s ≠ ""
  | .num n => n ≠ 0
  | .bool b => b
  | .undef => false
  | .fn _ => true

/-- typeof v same as the string type. -/
def isStringV : JsVal → Bool
  | .str _ => true
  | _ => false

/-- typeof v same as the function type. -/
def isFnV : JsVal → Bool
  | .fn _ => true
  | _ => false

/-- The string content of a JsVal, defaulting to the empty string.  Used
only where the source has already established typeof string. -/
def jsStr : JsVal → String
  | .str s => s
  | _ => ""

/-- Split a character list at a separator, keeping empty pieces, exactly as
JS String.prototype.split with a one-character separator does ("" gives
[""], "/" gives ["", ""]). -/
def splitChars (sep : Char) : List Char → List (List Char)
  | [] => [[]]
  | c :: cs =>
    let r := splitChars sep cs
    if c == sep then [] :: r
    else
      match r with
      | h :: t => (c :: h) :: t
      | [] => [[c]]

/-- s.split(sep) of JS for a one-character separator. -/
def jsSplit (s : String) (sep : Char) : List String :=
  (splitChars sep s.data).map (fun l => String.mk l)

/-- JS whitespace test for the characters that occur here. -/
def isWsChar (c : Char) : Bool :=
  c == ' ' || c == '\t' || c == '\n' || c == '\r'

/-- The value of a nonempty all-digit character list, none otherwise. -/
def natOfDigits : List Char → Option Nat
  | [] => none
  | l => l.foldl (fun acc? c =>
      match acc? with
      | none => none
      | some acc => if c.isDigit then some (acc * 10 + (c.toNat - 48)) else none)
      (some 0)

/-- An optionally signed decimal integer literal, none otherwise. -/
def intOfChars : List Char → Option Int
  | '-' :: rest => (natOfDigits rest).map (fun n => -(n : Int))
  | '+' :: rest => (natOfDigits rest).map (fun n => (n : Int))
  | l => (natOfDigits l).map (fun n => (n : Int))

/-- JS ToNumber on a string, restricted to the integer-literal fragment:
a whitespace-only string is 0, an optionally signed decimal integer is its
value, anything else is NaN (none).  The only strings this model is applied
to are the comma-joins of the capability lists below, which are not numeric
in JS either, so the restriction is harmless. -/
def jsStringToNumberInt (s : String) : Option Int :=
  let t := ((s.data.dropWhile isWsChar).reverse.dropWhile isWsChar).reverse
  if t = [] then some 0 else intOfChars t

/-- The comma-join that JS ToPrimitive applies to an array of strings. -/
def joinComma : List String → List Char
  | [] => []
  | [s] => s.data
  | s :: rest => s.data ++ ',' :: joinComma rest

/-- Interpret a Nat below 2 to the 32 as a signed 32-bit value. -/
def int32OfUInt32 (n : Nat) : Int :=
  if n < 2 ^ 31 then (n : Int) else (n : Int) - 2 ^ 32

/-- JS ToInt32 on an exact integer. -/
def toInt32 (n : Int) : Int :=
  int32OfUInt32 ((n % (2 : Int) ^ 32).toNat)

/-- JS ToInt32 where none stands for NaN (NaN converts to plus zero). -/
def toInt32OfNum : Option Int → Int
  | none => 0
  | some n => toInt32 n

/-- The two 32-bit operand patterns of the source's bitwise conjunction,
as JS evaluates the ampersand operator: both operands through ToInt32,
then a bitwise and on the 32-bit patterns. -/
def jsBitAnd (a b : Int) : Int :=
  int32OfUInt32 (Nat.land ((a % (2 : Int) ^ 32).toNat) ((b % (2 : Int) ^ 32).toNat))

/-- The Capability Catalog: the permissions object of src/index.js lines
48 to 107, as an association list in source order. -/
def permissions : List (String × List String) :=
  [ ("global",
      [ "language:read", "theme:read", "account:read", "backend:read",
        "widgets:read", "account:write", "backend:write", "notification:write" ]),
    ("clock", [ "timezone:read", "timezone:write" ]),
    ("todo", [ "list:read", "list:write" ]),
    ("quickLink", [ "custom:read", "custom:write" ]),
    ("course", [ "list:read", "list:write" ]),
    ("attendance", [ "absentList:read" ]),
    ("calendar", [ "events:read", "view:read", "view:write" ]),
    ("coursework", [ "list:read", "list:write" ]),
    ("quickNote",
      [ "list:read", "list:write", "noteContent:read", "noteContent:write",
        "view:read", "view:write" ]),
    ("inbox", [ "list:read", "mailContent:read", "view:read", "view:write" ]),
    ("gradeSummary", [ "list:read" ]),
    ("plugin", [ "runningPlugins:read" ]) ]

/-- Property read permissions[ns]: own-key lookup on the object literal
(none models undefined). -/
def permissionsFind (ns : String) : Option (List String) :=
  (permissions.find? (fun p => p.1 == ns)).map Prod.snd

/-- JS ToInt32 of the raw value permissions[ns]: undefined goes through NaN
to 0; an array goes through its comma-join string (ToPrimitive) and
ToNumber.  No capability list joins to a numeric string, so this is 0 for
every namespace, known or not. -/
def lookupToInt32 (o : Option (List String)) : Int :=
  match o with
  | none => 0
  | some l => toInt32OfNum (jsStringToNumberInt (String.mk (joinComma l)))

/-- isValidPermissionName of src/index.js lines 37 to 46, including the
source's bitwise ampersand between the segment-count test and the raw
looked-up value: the branch is taken only when that 32-bit conjunction is
nonzero. -/
def isValidPermissionName (name : JsVal) : Bool :=
  match name with
  | .str s =>
    let splitedName := jsSplit s '/' 
    let cond := jsBitAnd (if splitedName.length == 2 then 1 else 0)
      (lookupToInt32 (permissionsFind (splitedName.headD "")))
    if cond ≠ 0 then
      match permissionsFind (splitedName.headD "") with
      | some l => l.contains (splitedName.getD 1 "")
      | none => false
    else false
  | _ => false

/-- The Capability Catalog membership predicate as the specification words
it (section 4.1): the name splits into exactly two segments on the slash,
the first is a known namespace and the second is a member of that
namespace's capability list.  Written from the spec only, to compare with
the source's isValidPermissionName. -/
def specValidCapability (s : String) : Bool :=
  match jsSplit s '/' with
  | [ns, leaf] =>
    match permissionsFind ns with
    | some l => l.contains leaf
    | none => false
  | _ => false

/-- The Event Catalog: the eventList object of src/index.js lines 109 to
161, namespace to event name to required capability, in source order. -/
def eventList : List (String × List (String × String)) :=
  [ ("global",
      [ ("updateLanguage", "language:read"), ("updateTheme", "theme:read"),
        ("updateAccount", "account:read"), ("updateBackend", "backend:read"),
        ("updateWidgets", "widgets:read") ]),
    ("clock", [ ("updateTimezone", "timezone:read") ]),
    ("todo",
      [ ("done", "list:read"), ("undone", "list:read"),
        ("add", "list:read"), ("remove", "list:read") ]),
    ("quickLink",
      [ ("addCustomLink", "custom:read"), ("removeCustomLink", "custom:read") ]),
    ("course",
      [ ("add", "list:read"), ("remove", "list:read"), ("update", "list:read") ]),
    ("attendance", [ ("update", "absentList:read") ]),
    ("calendar", [ ("update", "events:read") ]),
    ("coursework",
      [ ("done", "list:read"), ("undone", "list:read"),
        ("add", "list:read"), ("remove", "list:read") ]),
    ("quickNote", [ ("add", "list:read"), ("remove", "list:read") ]),
    ("inbox", [ ("update", "list:read"), ("send", "view:read") ]),
    ("gradeSummary", [ ("update", "list:read") ]),
    ("plugin", [ ("updateRunningPlugins", "runningPlugins:read") ]) ]

/-- eventList[ns][leaf]: the nested own-key lookup the source guards with
truthiness (every stored capability string is nonempty, so some here is
exactly JS truthy there). -/
def eventFind (ns leaf : String) : Option String :=
  match eventList.find? (fun p => p.1 == ns) with
  | some nsMap => (nsMap.2.find? (fun q => q.1 == leaf)).map Prod.snd
  | none => none

/-- The error kinds of the SDK, one per distinct rejection or throw message
of src/index.js.  The specification groups them: notInited is
NotInitialized; permissionNotString, invalidPermissionName,
eventNameNotString, callbackNotFn, pluginIdNotString and invalidPluginId
are InvalidArgument; unknownEvent is UnknownEvent; permissionDenied is
PermissionDenied; timedOut is Timeout; cannotFindCallback and
noCallbackRegistered are NotFound. -/
inductive SdkError where
  | notInited
  | permissionNotString
  | invalidPermissionName (name : String)
  | eventNameNotString
  | callbackNotFn
  | permissionDenied (perm : String)
  | unknownEvent (target : String)
  | cannotFindCallback
  | noCallbackRegistered
  | timedOut
  | pluginIdNotString
  | invalidPluginId
deriving DecidableEq, Repr

/-- The guard typeof window.uomaPluginId same as string and length at least
4, shared by checkPermission, on, off, get and set. -/
def sessionValid : JsVal → Bool
  | .str s => decide (4 ≤ s.length)
  | _ => false

/-- The Subscription Registry, eventCallbackList of src/index.js line 163:
namespace to event leaf to the ordered callback array, as nested
association lists in insertion order. -/
abbrev Registry := List (String × List (String × List JsVal))

/-- eventCallbackList[ns][leaf]: some for a created array (possibly empty,
which is truthy in JS), none when either level is missing. -/
def regGet (reg : Registry) (ns leaf : String) : Option (List JsVal) :=
  match reg.find? (fun p => p.1 == ns) with
  | some nsMap => (nsMap.2.find? (fun q => q.1 == leaf)).map Prod.snd
  | none => none

/-- Association-list update: replace the value of an existing key in place,
or append the key, as a JS property assignment does. -/
def assocSet {β : Type} (m : List (String × β)) (k : String) (v : β) :
    List (String × β) :=
  match m with
  | [] => [(k, v)]
  | (k', v') :: rest =>
    if k' == k then (k, v) :: rest else (k', v') :: assocSet rest k v

/-- Write eventCallbackList[ns][leaf], creating the namespace object when
missing. -/
def regSet (reg : Registry) (ns leaf : String) (l : List JsVal) : Registry :=
  let inner := match reg.find? (fun p => p.1 == ns) with
    | some p => p.2
    | none => []
  assocSet reg ns (assocSet inner leaf l)

/-- Lines 269 to 278 of src/index.js: create the namespace object and the
callback array when missing, then push the callback. -/
def pushCallback (reg : Registry) (ns leaf : String) (cb : JsVal) : Registry :=
  regSet reg ns leaf ((regGet reg ns leaf).getD [] ++ [cb])

/-- Two pushes of the same callback: the registry state that two
successful registrations of one callback would produce.  Proof-layer
shorthand for stating the double-removal scenario. -/
def pushTwice (reg : Registry) (ns leaf : String) (cb : JsVal) : Registry :=
  pushCallback (pushCallback reg ns leaf cb) ns leaf cb

/-- The loop of src/index.js lines 306 to 312: scan for the first
identity-equal occurrence and splice it out; none when the callback is not
present. -/
def removeFirst (l : List JsVal) (cb : JsVal) : Option (List JsVal) :=
  match l with
  | [] => none
  | x :: xs =>
    if x == cb then some xs
    else (removeFirst xs cb).map (fun r => x :: r)

/-- The process-wide mutable state of the SDK: window.uomaPluginId and
eventCallbackList. -/
structure SdkState where
  uomaPluginId : JsVal
  eventCallbackList : Registry
deriving DecidableEq, Repr

/-- An inbound message event as the checkPermission listener inspects it:
arrival time in milliseconds after the request was issued, whether e.source
is window.parent, e.data.action and e.data.data. -/
structure InMsg where
  time : Nat
  fromParent : Bool
  action : String
  data : Bool
deriving DecidableEq, Repr

/-- The listener's match test, src/index.js line 225. -/
def msgMatches (permission : String) (m : InMsg) : Bool :=
  m.fromParent && (m.action == "checkPermission:" ++ permission)

/-- The observable events of one pending capability check, in the order
they happen. -/
inductive PEvt where
  | resolved (b : Bool)
  | rejectedTimeout
  | removedListener
deriving DecidableEq, Repr

/-- The state of one pending capability check: whether and how the promise
has settled, whether the message listener is still registered, and the
chronological event log. -/
structure PState where
  settled : Option (Except SdkError Bool)
  listenerOn : Bool
  log : List PEvt
deriving DecidableEq, Repr

/-- Delivery of one inbound message, src/index.js lines 223 to 228: when
the listener is registered and the message matches, resolve; resolving an
already settled promise is a no-op. -/
def listenerStep (permission : String) (st : PState) (m : InMsg) : PState :=
  if st.listenerOn && msgMatches permission m then
    match st.settled with
    | none => { st with settled := some (.ok m.data), log := st.log ++ [PEvt.resolved m.data] }
    | some _ => st
  else st

/-- The setTimeout callback of timedOutPromise, src/index.js lines 13 to
16: it always fires 1000ms after the request, first runs cleanUp (which
removes the listener, line 238) and then rejects; rejecting an already
settled promise is a no-op. -/
def timerStep (st : PState) : PState :=
  let st1 := { st with listenerOn := false, log := st.log ++ [PEvt.removedListener] }
  match st1.settled with
  | none => { st1 with settled := some (.error .timedOut), log := st1.log ++ [PEvt.rejectedTimeout] }
  | some _ => st1

/-- The state right after timedOutPromise registers the listener and posts
the request. -/
def startState : PState := ⟨none, true, []⟩

/-- The pending check after all messages that arrive before the 1000ms
timer has fired have been delivered. -/
def runEarly (permission : String) (trace : List InMsg) : PState :=
  (trace.filter (fun m => m.time < 1000)).foldl (listenerStep permission) startState

/-- The pending check after the timer has fired and every later message has
been delivered: the full single-shot exchange of src/index.js lines 220 to
239 against an environment trace. -/
def runProtocol (permission : String) (trace : List InMsg) : PState :=
  (trace.filter (fun m => 1000 ≤ m.time)).foldl (listenerStep permission)
    (timerStep (runEarly permission trace))

/-- The outbound request of src/index.js lines 232 to 236. -/
structure OutMsg where
  action : String
  id : String
  data : String
deriving DecidableEq, Repr

/-- What one checkPermission call did: its settled result, the messages it
posted to the parent, the final state of its pending-check machinery (none
when the preconditions failed before the protocol started, so no listener
was ever registered), and the global state it left behind. -/
structure CheckRun where
  result : Except SdkError Bool
  sent : List OutMsg
  protocol : Option PState
  state : SdkState
deriving DecidableEq, Repr

/-- checkPermission of src/index.js lines 208 to 240: the three
precondition checks in source order, then the timed request/response
exchange.  The source assigns neither window.uomaPluginId nor
eventCallbackList, so every branch returns the incoming state. -/
def checkPermission (st : SdkState) (permission : JsVal) (trace : List InMsg) :
    CheckRun :=
  if !sessionValid st.uomaPluginId then
    ⟨.error .notInited, [], none, st⟩
  else
    match permission with
    | .str s =>
      if !isValidPermissionName (.str s) then
        ⟨.error (.invalidPermissionName s), [], none, st⟩
      else
        let ps := runProtocol s trace
        ⟨(match ps.settled with
          | some r => r
          | none => Except.error SdkError.timedOut : Except SdkError Bool),
         [⟨"checkPermission", jsStr st.uomaPluginId, s⟩], some ps, st⟩
    | _ => ⟨.error .permissionNotString, [], none, st⟩

/-- What an on or off call did: its settled result, the state it left
behind and the messages posted on its behalf. -/
structure OpRun where
  result : Except SdkError JsVal
  state : SdkState
  sent : List OutMsg
deriving DecidableEq, Repr

/-- Rejected rather than resolved. -/
def isErr {α : Type} : Except SdkError α → Bool
  | .error _ => true
  | .ok _ => false

/-- The on method of src/index.js lines 248 to 281.  Line 264 passes the
raw catalog entry eventList[ns][leaf] (the bare leaf capability, not
namespace qualified) to checkPermission; an awaited rejection propagates.
After the callback is pushed, control falls out of the guarded block into
the unconditional rejection of line 280. -/
def «on» (st : SdkState) (target callback : JsVal) (trace : List InMsg) : OpRun :=
  if !sessionValid st.uomaPluginId then
    ⟨.error .notInited, st, []⟩
  else
    match target with
    | .str t =>
      match callback with
      | .fn _ =>
        let splitedTarget := jsSplit t '@'
        let a := splitedTarget.headD ""
        let b := splitedTarget.getD 1 ""
        if splitedTarget.length == 2 && (eventFind a b).isSome then
          let perm := (eventFind a b).getD ""
          let run := checkPermission st (.str perm) trace
          match run.result with
          | .error e => ⟨.error e, st, run.sent⟩
          | .ok result =>
            if !result then
              ⟨.error (.permissionDenied perm), st, run.sent⟩
            else
              ⟨.error (.unknownEvent t),
               { st with eventCallbackList := pushCallback st.eventCallbackList a b callback },
               run.sent⟩
        else ⟨.error (.unknownEvent t), st, []⟩
      | _ => ⟨.error .callbackNotFn, st, []⟩
    | _ => ⟨.error .eventNameNotString, st, []⟩

/-- The off method of src/index.js lines 289 to 318: same argument checks,
no capability check; remove the first identity-equal occurrence, resolve
with the removed callback, NotFound otherwise. -/
def off (st : SdkState) (target callback : JsVal) : OpRun :=
  if !sessionValid st.uomaPluginId then
    ⟨.error .notInited, st, []⟩
  else
    match target with
    | .str t =>
      match callback with
      | .fn _ =>
        let splitedTarget := jsSplit t '@'
        let a := splitedTarget.headD ""
        let b := splitedTarget.getD 1 ""
        if splitedTarget.length == 2 && (eventFind a b).isSome then
          match regGet st.eventCallbackList a b with
          | some lst =>
            match removeFirst lst callback with
            | some lst' =>
              ⟨.ok callback,
               { st with eventCallbackList := regSet st.eventCallbackList a b lst' }, []⟩
            | none => ⟨.error .cannotFindCallback, st, []⟩
          | none => ⟨.error .noCallbackRegistered, st, []⟩
        else ⟨.error (.unknownEvent t), st, []⟩
      | _ => ⟨.error .callbackNotFn, st, []⟩
    | _ => ⟨.error .eventNameNotString, st, []⟩

/-- The execution context init inspects: whether window.parent is window
itself, and the outcome of reading window.parent.isUoma (error models a
cross-origin access throw). -/
structure InitEnv where
  isTop : Bool
  parentFlag : Except Unit JsVal
deriving DecidableEq, Repr

/-- isUoma of src/index.js lines 24 to 30: the raw flag value, or false
when reading it throws. -/
def isUoma (env : InitEnv) : JsVal :=
  match env.parentFlag with
  | .ok v => v
  | .error _ => .bool false

/-- init either throws synchronously or returns a boolean. -/
inductive InitResult where
  | thrown (e : SdkError)
  | ret (b : Bool)
deriving DecidableEq, Repr

/-- init of src/index.js lines 176 to 201: argument checks throw; a
top-level context or an unrecognized parent returns false; success stores
the plugin id and returns true.  The passive storage listener it installs
observes only and is outside the model. -/
def init (st : SdkState) (pluginId : JsVal) (env : InitEnv) :
    InitResult × SdkState :=
  match pluginId with
  | .str s =>
    if s.length < 4 then (.thrown .invalidPluginId, st)
    else if env.isTop || !jsTruthy (isUoma env) then (.ret false, st)
    else (.ret true, { st with uomaPluginId := .str s })
  | _ => (.thrown .pluginIdNotString, st)

/-- A ready-to-use initialized state: what a successful
init("plugin-abcd") leaves behind. -/
def readyState : SdkState := ⟨.str "plugin-abcd", []⟩

/-- An environment in which the host answers true both to the
namespace-qualified capability of the spec and to the bare-leaf capability
the code actually asks about. -/
def grantingTrace : List InMsg :=
  [⟨100, true, "checkPermission:todo/list:read", true⟩,
   ⟨200, true, "checkPermission:list:read", true⟩]

/-- The error a checkPermission call settles with, as a function of its
inputs.  This is a proof-layer artifact, justified by checkPermission_eq
below: since isValidPermissionName is constantly false, the precondition
phase decides every call. -/
def cpErr (st : SdkState) (p : JsVal) : SdkError :=
  if !sessionValid st.uomaPluginId then .notInited
  else
    match p with
    | .str s => .invalidPermissionName s
    | _ => .permissionNotString

/-! Foundational lemmas: the bitwise conjunction of src/index.js line 42 is
zero for every input, so the validity check never takes its true branch. -/

theorem lookupToInt32_all_zero :
    (permissions.all (fun pr => lookupToInt32 (some pr.2) == 0)) = true := by
  decide

theorem lookupToInt32_permissionsFind (ns : String) :
    lookupToInt32 (permissionsFind ns) = 0 := by
  unfold permissionsFind
  cases h : permissions.find? (fun p => p.1 == ns) with
  | none => rfl
  | some pr =>
    have hmem : pr ∈ permissions := List.mem_of_find?_eq_some h
    have := List.all_eq_true.mp lookupToInt32_all_zero pr hmem
    simpa using this

theorem natLand_zero (n : Nat) : Nat.land n 0 = 0 := by
  unfold Nat.land
  simp [Nat.bitwise]

theorem jsBitAnd_zero_right (a : Int) : jsBitAnd a 0 = 0 := by
  simp [jsBitAnd, natLand_zero, int32OfUInt32]

theorem isValidPermissionName_false (v : JsVal) :
    isValidPermissionName v = false := by
  cases v <;>
    simp [isValidPermissionName, lookupToInt32_permissionsFind, jsBitAnd_zero_right]

/-- Every checkPermission call, whatever its arguments and environment,
rejects, posts no message, never starts the protocol and leaves the state
as it was: the constant-false validity check stops all of them. -/
theorem checkPermission_eq (st : SdkState) (p : JsVal) (trace : List InMsg) :
    checkPermission st p trace = ⟨.error (cpErr st p), [], none, st⟩ := by
  unfold checkPermission cpErr
  cases h : sessionValid st.uomaPluginId with
  | false => simp [h]
  | true => cases p <;> simp [h, isValidPermissionName_false]

/-- The on method never touches the registry: the push of line 278 sits
behind a successful capability check, and no capability check succeeds. -/
theorem on_state_unchanged (st : SdkState) (target callback : JsVal)
    (trace : List InMsg) :
    («on» st target callback trace).state = st := by
  unfold «on»
  cases h : sessionValid st.uomaPluginId with
  | false => simp [h]
  | true =>
    cases target <;> cases callback <;> simp [h, checkPermission_eq] <;>
      split <;> rfl

/-! Lemmas about the pending-check event model. -/

theorem listenerStep_listenerOn (p : String) (st : PState) (m : InMsg) :
    (listenerStep p st m).listenerOn = st.listenerOn := by
  unfold listenerStep
  split
  · split <;> rfl
  · rfl

theorem foldl_listenerStep_listenerOn (p : String) :
    ∀ (l : List InMsg) (st : PState),
      (l.foldl (listenerStep p) st).listenerOn = st.listenerOn
  | [], _ => rfl
  | m :: l, st => by
    rw [List.foldl_cons, foldl_listenerStep_listenerOn p l,
      listenerStep_listenerOn]

theorem listenerStep_id_of_off (p : String) (st : PState) (m : InMsg)
    (h : st.listenerOn = false) : listenerStep p st m = st := by
  unfold listenerStep
  simp [h]

theorem foldl_listenerStep_id_of_off (p : String) :
    ∀ (l : List InMsg) (st : PState), st.listenerOn = false →
      l.foldl (listenerStep p) st = st
  | [], _, _ => rfl
  | m :: l, st, h => by
    rw [List.foldl_cons, listenerStep_id_of_off p st m h,
      foldl_listenerStep_id_of_off p l st h]

theorem listenerStep_id_of_nomatch (p : String) (st : PState) (m : InMsg)
    (h : msgMatches p m = false) : listenerStep p st m = st := by
  unfold listenerStep
  simp [h]

theorem foldl_listenerStep_id_of_nomatch (p : String) :
    ∀ (l : List InMsg) (st : PState), (∀ m ∈ l, msgMatches p m = false) →
      l.foldl (listenerStep p) st = st
  | [], _, _ => rfl
  | m :: l, st, h => by
    rw [List.foldl_cons, listenerStep_id_of_nomatch p st m (h m (List.mem_cons_self m l)),
      foldl_listenerStep_id_of_nomatch p l st (fun m' hm' => h m' (List.mem_cons_of_mem m hm'))]

theorem listenerStep_log_no_removal (p : String) (st : PState) (m : InMsg)
    (h : PEvt.removedListener ∉ st.log) :
    PEvt.removedListener ∉ (listenerStep p st m).log := by
  unfold listenerStep
  split
  · split
    · simpa using h
    · exact h
  · exact h

theorem foldl_listenerStep_log_no_removal (p : String) :
    ∀ (l : List InMsg) (st : PState), PEvt.removedListener ∉ st.log →
      PEvt.removedListener ∉ (l.foldl (listenerStep p) st).log
  | [], _, h => h
  | m :: l, st, h => by
    rw [List.foldl_cons]
    exact foldl_listenerStep_log_no_removal p l _
      (listenerStep_log_no_removal p st m h)

theorem listenerStep_log_keeps (p : String) (st : PState) (m : InMsg)
    (a : PEvt) (h : a ∈ st.log) : a ∈ (listenerStep p st m).log := by
  unfold listenerStep
  split
  · split
    · simpa using Or.inl h
    · exact h
  · exact h

theorem foldl_listenerStep_log_keeps (p : String) :
    ∀ (l : List InMsg) (st : PState) (a : PEvt), a ∈ st.log →
      a ∈ (l.foldl (listenerStep p) st).log
  | [], _, _, h => h
  | m :: l, st, a, h => by
    rw [List.foldl_cons]
    exact foldl_listenerStep_log_keeps p l _ a (listenerStep_log_keeps p st m a h)

theorem timerStep_listenerOn (st : PState) : (timerStep st).listenerOn = false := by
  unfold timerStep
  cases st.settled <;> rfl

theorem timerStep_log_removal (st : PState) :
    PEvt.removedListener ∈ (timerStep st).log := by
  unfold timerStep
  cases st.settled <;> simp

theorem runEarly_listenerOn (p : String) (trace : List InMsg) :
    (runEarly p trace).listenerOn = true := by
  unfold runEarly
  rw [foldl_listenerStep_listenerOn]
  rfl

theorem runProtocol_listenerOn (p : String) (trace : List InMsg) :
    (runProtocol p trace).listenerOn = false := by
  unfold runProtocol
  rw [foldl_listenerStep_listenerOn, timerStep_listenerOn]

/-- One unfolding of off once the argument checks pass and the event is
catalog listed: the result is decided by the registry lookup and the
first-occurrence scan. -/
theorem off_unfold (st : SdkState) (t a b perm : String) (i : Nat)
    (hsess : sessionValid st.uomaPluginId = true)
    (hsplit : jsSplit t '@' = [a, b])
    (hev : eventFind a b = some perm) :
    off st (.str t) (.fn i) =
      (match regGet st.eventCallbackList a b with
       | some lst =>
         (match removeFirst lst (.fn i) with
          | some lst' =>
            ⟨.ok (.fn i),
             { st with eventCallbackList := regSet st.eventCallbackList a b lst' }, []⟩
          | none => ⟨.error .cannotFindCallback, st, []⟩)
       | none => ⟨.error .noCallbackRegistered, st, []⟩) := by
  unfold off
  simp [hsess, hsplit, hev]

/-! Lemmas about the nested association-list registry. -/

theorem assocFind_assocSet_self {β : Type} (m : List (String × β)) (k : String) (v : β) :
    (assocSet m k v).find? (fun p => p.1 == k) = some (k, v) := by
  induction m with
  | nil => simp [assocSet]
  | cons kv rest ih =>
    obtain ⟨k', v'⟩ := kv
    unfold assocSet
    by_cases h : (k' == k) = true
    · simp [h]
    · simp only [Bool.not_eq_true] at h
      rw [if_neg (by simp [h])]
      rw [List.find?_cons_of_neg _ (by simpa using h)]
      exact ih

theorem regGet_regSet_self (reg : Registry) (a b : String) (l : List JsVal) :
    regGet (regSet reg a b l) a b = some l := by
  unfold regGet regSet
  rw [assocFind_assocSet_self]
  simp [assocFind_assocSet_self]

theorem regGet_pushCallback_self (reg : Registry) (a b : String) (cb : JsVal) :
    regGet (pushCallback reg a b cb) a b = some ((regGet reg a b).getD [] ++ [cb]) := by
  unfold pushCallback
  exact regGet_regSet_self reg a b _

/-! The claims. -/

/-- Claim C1: the claim says isValidPermissionName accepts exactly the
Capability Catalog names.  In fact the source returns false for every
input, the catalog name todo/list:read included, although that name is
catalog valid in the sense of the specification: the bitwise ampersand of
line 42 coerces the capability array to 0, so the membership branch is
unreachable. -/
theorem capability_catalog_rejected :
    isValidPermissionName (JsVal.str "todo/list:read") = false
    ∧ specValidCapability "todo/list:read" = true
    ∧ ∀ name, isValidPermissionName name = false :=
  ⟨isValidPermissionName_false _, by decide, isValidPermissionName_false⟩

/-- Claim C2: the claim says on("todo@done", cb) resolves exactly when the
capability check for todo/list:read resolves true.  In fact, with a valid
session and a host environment that would grant both todo/list:read and
the bare leaf list:read, on rejects with the propagated
invalid-permission-name error for list:read (the catalog entry it passes
to the checker is not namespace qualified, and the checker rejects every
name anyway), the registry is untouched and nothing is sent. -/
theorem on_flagship_event_rejects :
    («on» readyState (.str "todo@done") (.fn 0) grantingTrace).result
        = Except.error (SdkError.invalidPermissionName "list:read")
    ∧ («on» readyState (.str "todo@done") (.fn 0) grantingTrace).state = readyState
    ∧ («on» readyState (.str "todo@done") (.fn 0) grantingTrace).sent = [] := by
  refine ⟨?_, ?_, ?_⟩ <;> decide

/-- The off method either leaves the state unchanged or resolves: the only
mutating branch is the successful splice. -/
theorem off_state_or_ok (st : SdkState) (target cb : JsVal) :
    (off st target cb).state = st ∨ isErr (off st target cb).result = false := by
  unfold off
  cases h : sessionValid st.uomaPluginId with
  | false => left; simp [h]
  | true =>
    cases target with
    | str t =>
      cases cb with
      | fn i =>
        simp only [h, Bool.not_true, Bool.false_eq_true, if_false]
        split
        · split
          · split
            · right; rfl
            · left; rfl
          · left; rfl
        · left; rfl
      | str s => left; simp [h]
      | num n => left; simp [h]
      | bool b => left; simp [h]
      | undef => left; simp [h]
    | num n => cases cb <;> left <;> simp [h]
    | bool b => cases cb <;> left <;> simp [h]
    | undef => cases cb <;> left <;> simp [h]
    | fn j => cases cb <;> left <;> simp [h]

/-- Claim C3: whenever checkPermission, on or off fails, the Session
identity and the Subscription Registry are exactly as before the call; no
failure path performs a partial mutation.  (checkPermission never mutates
them at all, and on never mutates them because its push sits behind a
capability check that never succeeds.) -/
theorem failing_ops_leave_state_unchanged (st : SdkState) (p target cb : JsVal)
    (trace : List InMsg) :
    (checkPermission st p trace).state = st
    ∧ (isErr («on» st target cb trace).result = true →
        («on» st target cb trace).state = st)
    ∧ (isErr (off st target cb).result = true → (off st target cb).state = st) := by
  refine ⟨by rw [checkPermission_eq], fun _ => on_state_unchanged st target cb trace, ?_⟩
  intro herr
  rcases off_state_or_ok st target cb with h | h
  · exact h
  · rw [herr] at h
    exact absurd h (by simp)

theorem failing_ops_leave_state_unchanged_witness :
    isErr («on» readyState (.str "nope") (.fn 1) []).result = true
    ∧ («on» readyState (.str "nope") (.fn 1) []).state = readyState
    ∧ isErr (off readyState (.str "todo@done") (.fn 1)).result = true
    ∧ (off readyState (.str "todo@done") (.fn 1)).state = readyState :=
  ⟨by decide,
   (failing_ops_leave_state_unchanged readyState (.num 0) (.str "nope") (.fn 1) []).2.1
     (by decide),
   by decide,
   (failing_ops_leave_state_unchanged readyState (.num 0) (.str "todo@done") (.fn 1) []).2.2
     (by decide)⟩

/-- Claim C4: when no matching response arrives within 1000ms, the pending
exchange of src/index.js lines 220 to 239 settles with the Timeout error,
and the listener is deregistered before the rejection is surfaced (the log
records the removal strictly before the rejection), so no listener remains
registered afterwards; the timer fires even if the host never responds.
This is proved for every run of the request/response phase, regardless of
how the preceding precondition checks came out. -/
theorem timeout_always_cleans_up (permission : String) (trace : List InMsg)
    (hno : (trace.all fun m => !(decide (m.time < 1000)) || !msgMatches permission m) = true) :
    runProtocol permission trace =
      ⟨some (.error .timedOut), false, [.removedListener, .rejectedTimeout]⟩ := by
  have hall := List.all_eq_true.mp hno
  have hearly : runEarly permission trace = startState := by
    unfold runEarly
    apply foldl_listenerStep_id_of_nomatch
    intro m hm
    obtain ⟨hmem, htime⟩ := List.mem_filter.mp hm
    have h2 := hall m hmem
    rw [htime] at h2
    simpa using h2
  unfold runProtocol
  rw [hearly]
  have ht : timerStep startState =
      ⟨some (.error .timedOut), false, [.removedListener, .rejectedTimeout]⟩ := rfl
  rw [ht]
  exact foldl_listenerStep_id_of_off permission _ _ rfl

theorem timeout_always_cleans_up_witness :
    (([] : List InMsg).all
        fun m => !(decide (m.time < 1000)) || !msgMatches "global/account:read" m) = true
    ∧ runProtocol "global/account:read" [] =
        ⟨some (.error .timedOut), false, [.removedListener, .rejectedTimeout]⟩ :=
  ⟨rfl, timeout_always_cleans_up "global/account:read" [] rfl⟩

/-- Claim C5, counterexample: a matching response at 500ms resolves the
exchange, yet right after that response has been processed the listener is
still registered — deregistration does not happen at the first of the two
events, as the claim states. -/
theorem listener_survives_matching_response :
    (runEarly "global/theme:read"
        [⟨500, true, "checkPermission:global/theme:read", true⟩]).settled
      = some (Except.ok true)
    ∧ (runEarly "global/theme:read"
        [⟨500, true, "checkPermission:global/theme:read", true⟩]).listenerOn = true := by
  refine ⟨?_, ?_⟩ <;> decide

/-- Claim C5, amended: the listener registered by the request/response
phase stays registered through the whole pre-timeout window (a matching
response resolves the exchange but does not deregister), and it is
deregistered exactly when the 1000ms timer fires, on the response and the
no-response path alike. -/
theorem listener_removed_only_by_timer (permission : String) (trace : List InMsg) :
    (runEarly permission trace).listenerOn = true
    ∧ PEvt.removedListener ∉ (runEarly permission trace).log
    ∧ (runProtocol permission trace).listenerOn = false
    ∧ PEvt.removedListener ∈ (runProtocol permission trace).log := by
  refine ⟨runEarly_listenerOn permission trace, ?_,
    runProtocol_listenerOn permission trace, ?_⟩
  · unfold runEarly
    exact foldl_listenerStep_log_no_removal permission _ _ (by simp [startState])
  · unfold runProtocol
    exact foldl_listenerStep_log_keeps permission _ _ _ (timerStep_log_removal _)

/-- Claim C6: checkPermission called without a valid session fails with the
NotInitialized error whatever the argument is; with a valid session a
non-string argument fails with the type error; with a valid session and a
string argument that the validity check rejects it fails with the
invalid-name error.  The three checks happen in exactly this order. -/
theorem checkPermission_precondition_order (st : SdkState) (p : JsVal)
    (trace : List InMsg) :
    (sessionValid st.uomaPluginId = false →
      (checkPermission st p trace).result = Except.error SdkError.notInited)
    ∧ (sessionValid st.uomaPluginId = true → isStringV p = false →
      (checkPermission st p trace).result = Except.error SdkError.permissionNotString)
    ∧ (∀ s, sessionValid st.uomaPluginId = true → p = JsVal.str s →
      isValidPermissionName (JsVal.str s) = false →
      (checkPermission st p trace).result
        = Except.error (SdkError.invalidPermissionName s)) := by
  refine ⟨?_, ?_, ?_⟩
  · intro h
    rw [checkPermission_eq]
    simp [cpErr, h]
  · intro h hs
    rw [checkPermission_eq]
    cases p <;> simp_all [cpErr, isStringV]
  · intro s h hp _
    subst hp
    rw [checkPermission_eq]
    simp [cpErr, h]

theorem checkPermission_precondition_order_witness :
    (checkPermission ⟨.undef, []⟩ (.num 5) []).result = Except.error SdkError.notInited
    ∧ (checkPermission readyState (.num 5) []).result
        = Except.error SdkError.permissionNotString
    ∧ (checkPermission readyState (.str "bogus") []).result
        = Except.error (SdkError.invalidPermissionName "bogus") :=
  ⟨(checkPermission_precondition_order ⟨.undef, []⟩ (.num 5) []).1 (by decide),
   (checkPermission_precondition_order readyState (.num 5) []).2.1 (by decide) (by decide),
   (checkPermission_precondition_order readyState (.str "bogus") []).2.2 "bogus"
     (by decide) rfl (by decide)⟩

/-- Claim C7: for a capability name outside the Capability Catalog (for
example the single-segment name bogus), checkPermission with a valid
session fails with the invalid-name error, posts no message, and never
registers a listener: the static validation completes, and fails, before
any cross-context communication is attempted.  (The proof does not even
need the name to be outside the catalog: the validity check of the source
rejects every name.) -/
theorem invalid_capability_sends_nothing (st : SdkState) (s : String)
    (trace : List InMsg)
    (hsess : sessionValid st.uomaPluginId = true)
    (_hnv : specValidCapability s = false) :
    (checkPermission st (.str s) trace).result
        = Except.error (SdkError.invalidPermissionName s)
    ∧ (checkPermission st (.str s) trace).sent = []
    ∧ (checkPermission st (.str s) trace).protocol = none := by
  rw [checkPermission_eq]
  exact ⟨by simp [cpErr, hsess], rfl, rfl⟩

theorem invalid_capability_sends_nothing_witness :
    specValidCapability "bogus" = false
    ∧ (checkPermission readyState (.str "bogus") []).result
        = Except.error (SdkError.invalidPermissionName "bogus")
    ∧ (checkPermission readyState (.str "bogus") []).sent = []
    ∧ (checkPermission readyState (.str "bogus") []).protocol = none :=
  ⟨by decide,
   (invalid_capability_sends_nothing readyState "bogus" [] (by decide) (by decide)).1,
   (invalid_capability_sends_nothing readyState "bogus" [] (by decide) (by decide)).2.1,
   (invalid_capability_sends_nothing readyState "bogus" [] (by decide) (by decide)).2.2⟩

/-- Claim C8: for a catalog-listed event with a valid session, off fails
with a NotFound error when the event has never had a sequence created;
fails with the other NotFound error when the sequence exists but the
callback is absent; removes the first identity-equal occurrence and
resolves with the removed callback when it is present; and after the same
callback has been pushed twice (the state two successful registrations
would produce), two successive off calls each succeed, removing one
occurrence each and leaving the empty sequence. -/
theorem off_removes_first_match (st : SdkState) (t a b perm : String) (i : Nat)
    (hsess : sessionValid st.uomaPluginId = true)
    (hsplit : jsSplit t '@' = [a, b])
    (hev : eventFind a b = some perm) :
    (regGet st.eventCallbackList a b = none →
      off st (.str t) (.fn i) = ⟨.error .noCallbackRegistered, st, []⟩)
    ∧ (∀ lst, regGet st.eventCallbackList a b = some lst →
        removeFirst lst (.fn i) = none →
        off st (.str t) (.fn i) = ⟨.error .cannotFindCallback, st, []⟩)
    ∧ (∀ lst lst', regGet st.eventCallbackList a b = some lst →
        removeFirst lst (.fn i) = some lst' →
        off st (.str t) (.fn i) =
          ⟨.ok (.fn i),
           { st with eventCallbackList := regSet st.eventCallbackList a b lst' }, []⟩)
    ∧ (∀ st2, regGet st.eventCallbackList a b = none →
        st2 = { st with eventCallbackList := pushTwice st.eventCallbackList a b (.fn i) } →
        (off st2 (.str t) (.fn i)).result = .ok (.fn i)
        ∧ regGet (off st2 (.str t) (.fn i)).state.eventCallbackList a b = some [.fn i]
        ∧ (off (off st2 (.str t) (.fn i)).state (.str t) (.fn i)).result = .ok (.fn i)
        ∧ regGet (off (off st2 (.str t) (.fn i)).state
            (.str t) (.fn i)).state.eventCallbackList a b = some []) := by
  refine ⟨?_, ?_, ?_, ?_⟩
  · intro h0
    rw [off_unfold st t a b perm i hsess hsplit hev, h0]
  · intro lst h0 hrem
    rw [off_unfold st t a b perm i hsess hsplit hev, h0]
    simp [hrem]
  · intro lst lst' h0 hrem
    rw [off_unfold st t a b perm i hsess hsplit hev, h0]
    simp [hrem]
  · intro st2 h0 hst2
    have hpush1 : regGet (pushCallback st.eventCallbackList a b (.fn i)) a b
        = some [.fn i] := by
      rw [regGet_pushCallback_self, h0]
      rfl
    have hpush2 : regGet st2.eventCallbackList a b = some [.fn i, .fn i] := by
      rw [hst2]
      show regGet (pushTwice st.eventCallbackList a b (.fn i)) a b = some [.fn i, .fn i]
      unfold pushTwice
      rw [regGet_pushCallback_self, hpush1]
      rfl
    have hsess2 : sessionValid st2.uomaPluginId = true := by rw [hst2]; exact hsess
    have hrem2 : removeFirst [JsVal.fn i, JsVal.fn i] (.fn i) = some [JsVal.fn i] := by
      simp [removeFirst]
    have hoff1 : off st2 (.str t) (.fn i) =
        ⟨.ok (.fn i),
         { st2 with eventCallbackList := regSet st2.eventCallbackList a b [JsVal.fn i] },
         []⟩ := by
      rw [off_unfold st2 t a b perm i hsess2 hsplit hev, hpush2]
      simp [hrem2]
    have hget1 : regGet (off st2 (.str t) (.fn i)).state.eventCallbackList a b
        = some [JsVal.fn i] := by
      rw [hoff1]
      exact regGet_regSet_self st2.eventCallbackList a b [JsVal.fn i]
    have hsess3 : sessionValid (off st2 (.str t) (.fn i)).state.uomaPluginId = true := by
      rw [hoff1]
      exact hsess2
    have hrem3 : removeFirst [JsVal.fn i] (.fn i) = some [] := by
      simp [removeFirst]
    have hoff2 : off (off st2 (.str t) (.fn i)).state (.str t) (.fn i) =
        ⟨.ok (.fn i),
         { (off st2 (.str t) (.fn i)).state with eventCallbackList := regSet (off st2 (.str t) (.fn i)).state.eventCallbackList a b [] },
         []⟩ := by
      rw [off_unfold _ t a b perm i hsess3 hsplit hev, hget1]
      simp [hrem3]
    refine ⟨by rw [hoff1], hget1, by rw [hoff2], ?_⟩
    rw [hoff2]
    exact regGet_regSet_self _ a b []

theorem off_removes_first_match_witness :
    off readyState (.str "todo@done") (.fn 7)
        = ⟨.error .noCallbackRegistered, readyState, []⟩
    ∧ (off { readyState with eventCallbackList := pushTwice readyState.eventCallbackList "todo" "done" (.fn 7) } (.str "todo@done") (.fn 7)).result = .ok (.fn 7) :=
  ⟨(off_removes_first_match readyState "todo@done" "todo" "done" "list:read" 7
      (by decide) (by decide) (by decide)).1 (by decide),
   ((off_removes_first_match readyState "todo@done" "todo" "done" "list:read" 7
      (by decide) (by decide) (by decide)).2.2.2 _ (by decide) rfl).1⟩

/-- Claim C9: init throws the InvalidArgument errors synchronously when the
plugin id is not a string or is shorter than 4; returns false without
touching the session when the context is top level or the parent flag is
not truthy (an error while reading the flag counts as not recognized); and
on success stores the plugin id as the Session identity and returns
true. -/
theorem init_contract (st : SdkState) (pid : JsVal) (env : InitEnv) :
    (isStringV pid = false → init st pid env = (.thrown .pluginIdNotString, st))
    ∧ (∀ s, pid = JsVal.str s → s.length < 4 →
        init st pid env = (.thrown .invalidPluginId, st))
    ∧ (∀ s, pid = JsVal.str s → 4 ≤ s.length →
        (env.isTop = true ∨ jsTruthy (isUoma env) = false) →
        init st pid env = (.ret false, st))
    ∧ (∀ s, pid = JsVal.str s → 4 ≤ s.length → env.isTop = false →
        jsTruthy (isUoma env) = true →
        init st pid env = (.ret true, { st with uomaPluginId := JsVal.str s })) := by
  refine ⟨?_, ?_, ?_, ?_⟩
  · intro h
    cases pid <;> simp_all [init, isStringV]
  · intro s hp hlen
    subst hp
    simp [init, hlen]
  · intro s hp hlen hfail
    subst hp
    have h4 : ¬ s.length < 4 := by omega
    rcases hfail with h | h <;> simp [init, h4, h]
  · intro s hp hlen htop hflag
    subst hp
    have h4 : ¬ s.length < 4 := by omega
    simp [init, h4, htop, hflag]

theorem init_contract_witness :
    init readyState (.num 3) ⟨false, .ok (.bool true)⟩
        = (.thrown .pluginIdNotString, readyState)
    ∧ init ⟨.undef, []⟩ (.str "abc") ⟨false, .ok (.bool true)⟩
        = (.thrown .invalidPluginId, ⟨.undef, []⟩)
    ∧ init ⟨.undef, []⟩ (.str "plugin-abcd") ⟨false, .error ()⟩
        = (.ret false, ⟨.undef, []⟩)
    ∧ init ⟨.undef, []⟩ (.str "plugin-abcd") ⟨false, .ok (.bool true)⟩
        = (.ret true, ⟨.str "plugin-abcd", []⟩) :=
  ⟨(init_contract readyState (.num 3) ⟨false, .ok (.bool true)⟩).1 rfl,
   (init_contract ⟨.undef, []⟩ (.str "abc") ⟨false, .ok (.bool true)⟩).2.1 "abc" rfl
     (by decide),
   (init_contract ⟨.undef, []⟩ (.str "plugin-abcd") ⟨false, .error ()⟩).2.2.1
     "plugin-abcd" rfl (by decide) (Or.inr rfl),
   (init_contract ⟨.undef, []⟩ (.str "plugin-abcd") ⟨false, .ok (.bool true)⟩).2.2.2
     "plugin-abcd" rfl (by decide) rfl rfl⟩

/-- Claim C10: the promise returned by on rejects for every combination of
session state, arguments, registry and host behaviour: the only path that
could resolve sits behind a successful capability check, which never
happens, and even that path falls through to the unconditional
unknown-event rejection of line 280 after pushing the callback. -/
theorem on_never_resolves (st : SdkState) (target callback : JsVal)
    (trace : List InMsg) :
    isErr («on» st target callback trace).result = true := by
  unfold «on»
  cases h : sessionValid st.uomaPluginId with
  | false => simp [h, isErr]
  | true =>
    cases target <;> cases callback <;> simp [h, checkPermission_eq] <;>
      first
        | rfl
        | (split <;> rfl)

end UomaSdk
